import Mathlib

/-!
# Recipe-API: formal model of the recipe versioning / scaling / rating slice

A shallow embedding of the `recipe` Django app of the Recipe-API repository
(`recipe/models.py`, `recipe/serializers.py`, `recipe/views.py`).

* The database is modelled as explicit lists of rows (`DB`); Django ORM
  operations become pure state-passing functions over `DB`.
* `decimal.Decimal` values are modelled by their exact rational value `ℚ`;
  Python's default decimal context (28 significant digits, ROUND_HALF_EVEN)
  is modelled value-wise by `dec28`, and the `float(...)` conversion of a
  decimal (correctly rounded to IEEE-754 binary64, round-to-nearest,
  ties-to-even) is modelled value-wise by `float64` on the normal range.
* Machine integers of the source are `ℕ` / `ℤ` (no overflow is reachable on
  the modelled fields).
-/

namespace RecipeAPI

set_option maxRecDepth 8000

/-! ## Numeric layer: Python `decimal` context arithmetic and `float()`

All rounding is expressed over plain `ℕ` / `ℤ` arithmetic on numerators and
denominators. -/

/-- Round the fraction `num / den` (`den > 0`) to the nearest integer, ties
to the even integer (Python / IEEE-754 "banker's rounding"). -/
def roundHalfEvenFrac (num den : ℤ) : ℤ :=
  let q := Int.fdiv num den
  let r := num - q * den
  if 2 * r < den then q
  else if den < 2 * r then q + 1
  else if q % 2 = 0 then q else q + 1

/-- Length of `n` written in base `base` (`0` for `n = 0`), by fuel
recursion; the fuel covers every magnitude reachable from the modelled
fields. -/
def lenAux (base : ℕ) : ℕ → ℕ → ℕ
  | 0, _ => 0
  | fuel + 1, n => if n = 0 then 0 else lenAux base fuel (n / base) + 1

/-- Number of base-`base` digits of `n`. -/
def blen (base n : ℕ) : ℕ := lenAux base 600 n

/-- `⌊log_base (a / b)⌋` for positive naturals `a`, `b`: the digit-length
difference is exact up to one, fixed by a single cross-multiplied
comparison. -/
def fexp (base a b : ℕ) : ℤ :=
  let e0 : ℤ := (blen base a : ℤ) - (blen base b : ℤ)
  if 0 ≤ e0 then (if b * base ^ e0.toNat ≤ a then e0 else e0 - 1)
  else (if b ≤ a * base ^ (-e0).toNat then e0 else e0 - 1)

/-- Round the positive rational `a / b` to `digits` significant base-`base`
digits, ties to even: the grid is `base ^ (⌊log_base (a/b)⌋ - (digits - 1))`,
the result the nearest multiple of the grid. -/
def sigRound (base digits a b : ℕ) : ℚ :=
  let g : ℤ := fexp base a b - (digits - 1 : ℕ)
  if 0 ≤ g then
    ((roundHalfEvenFrac (a : ℤ) ((b * base ^ g.toNat : ℕ) : ℤ) *
      ((base ^ g.toNat : ℕ) : ℤ) : ℤ) : ℚ)
  else
    Rat.divInt (roundHalfEvenFrac ((a * base ^ (-g).toNat : ℕ) : ℤ) (b : ℤ))
      ((base ^ (-g).toNat : ℕ) : ℤ)

/-- Value of a Python `Decimal` result rounded by the default decimal context:
28 significant digits, ROUND_HALF_EVEN.  `decimal` rounds the exact result of
each arithmetic operation onto the grid of the 28th significant digit of the
exact value; this function is that value-level rounding. -/
def dec28 (x : ℚ) : ℚ :=
  if x = 0 then 0
  else if x < 0 then -sigRound 10 28 x.num.natAbs x.den
  else sigRound 10 28 x.num.natAbs x.den

/-- Value of Python `float(d)` for a `Decimal` (exact rational) `d`:
correctly rounded IEEE-754 binary64 (53 significant bits), round-to-nearest
ties-to-even, on the normal range (no value reachable here is subnormal or
overflows). -/
def float64 (x : ℚ) : ℚ :=
  if x = 0 then 0
  else if x < 0 then -sigRound 2 53 x.num.natAbs x.den
  else sigRound 2 53 x.num.natAbs x.den

/-! ## Data model (`recipe/models.py`)

Rows of the relevant tables.  Fields irrelevant to the verified claims
(slugs, timestamps, media, tags, tips, equipment, nutrition, view counts,
review text) are omitted; enum-valued text fields (`unit`, ingredient
`type`) stay `String`. -/

/-- Primary key of a `User` row. -/
abbrev UserId := ℕ

/-- Primary key of a `Recipe` row. -/
abbrev RecipeId := ℕ

/-- `Recipe.VISIBILITY_CHOICES`: draft / private / pending / public. -/
inductive Visibility
  | draft
  | priv
  | pending
  | pub
deriving DecidableEq

/-- A `Recipe` row (`models.Recipe`). -/
structure Recipe where
  rid : RecipeId
  title : String
  description : String
  instructions : List String
  serving_size : ℕ
  cook_time : ℕ
  visibility : Visibility
  average_rating : ℚ
  total_ratings : ℕ
deriving DecidableEq

/-- An `Ingredient` row (`models.Ingredient`); `quantity` is the exact value
of the stored `DecimalField(max_digits=10, decimal_places=2)`. -/
structure IngredientRow where
  recipeId : RecipeId
  name : String
  quantity : ℚ
  unit : String
  type : String
  notes : String
deriving DecidableEq

/-- A `Rating` row (`models.Rating`); `unique_together ('user', 'recipe')`. -/
structure RatingRow where
  user : UserId
  recipeId : RecipeId
  rating : ℕ
  is_spam : Bool
deriving DecidableEq

/-- One entry of `RecipeVersion.ingredients_snapshot`: a by-value copy of an
ingredient row (the source serializes `quantity` as `str(ing.quantity)`;
the value it denotes is kept here). -/
structure SnapshotIngredient where
  name : String
  quantity : ℚ
  unit : String
  type : String
  notes : String
deriving DecidableEq

/-- A `RecipeVersion` row (`models.RecipeVersion`). -/
structure VersionRow where
  recipeId : RecipeId
  version_number : ℕ
  title : String
  description : String
  instructions : List String
  ingredients_snapshot : List SnapshotIngredient
  changed_by : UserId
  change_summary : String
deriving DecidableEq

/-- The relational store: one list of rows per table, in insertion order. -/
structure DB where
  recipes : List Recipe
  ingredients : List IngredientRow
  ratings : List RatingRow
  versions : List VersionRow
deriving DecidableEq

/-- Look a recipe up by primary key. -/
def findRecipe (rid : RecipeId) (db : DB) : Option Recipe :=
  db.recipes.find? (fun r => r.rid == rid)

/-- Update the recipe row with key `rid` in place (ORM `save()`). -/
def setRecipe (rid : RecipeId) (f : Recipe → Recipe) (db : DB) : DB :=
  { db with recipes := db.recipes.map (fun r => if r.rid == rid then f r else r) }

/-- `recipe.ingredients.all()`: this recipe's ingredient rows. -/
def ingredientsOf (rid : RecipeId) (db : DB) : List IngredientRow :=
  db.ingredients.filter (fun i => i.recipeId == rid)

/-- `recipe.ratings.all()`: this recipe's rating rows (no spam filter). -/
def ratingsOf (rid : RecipeId) (db : DB) : List RatingRow :=
  db.ratings.filter (fun x => x.recipeId == rid)

/-- `recipe.versions.all()`: this recipe's version rows. -/
def versionsOf (rid : RecipeId) (db : DB) : List VersionRow :=
  db.versions.filter (fun v => v.recipeId == rid)

/-! ## Operations -/

/-- `Recipe.update_rating` (models.py 240-250): recompute `average_rating`
and `total_ratings` from `self.ratings.all()` — all rating rows of the
recipe, with no `is_spam` filter — and save both fields.  The `Avg`
aggregate is a double and `average_rating` is a `FloatField`, so the stored
average is the binary64 rounding of the arithmetic mean (the sum of 1-to-5
integer ratings is exact in binary64, the division correctly rounded). -/
def update_rating (rid : RecipeId) (db : DB) : DB :=
  let rs := ratingsOf rid db
  if rs.isEmpty then
    setRecipe rid (fun r => { r with average_rating := 0, total_ratings := 0 }) db
  else
    let avg := float64 ((rs.map (fun x => (x.rating : ℚ))).sum / (rs.length : ℚ))
    setRecipe rid (fun r => { r with average_rating := avg, total_ratings := rs.length }) db

/-- `RatingSerializer.create` (serializers.py 75-91) with its
`validate_rating` check: `Rating.objects.update_or_create(user=..,
recipe_id=.., defaults=..)` — update the existing `(user, recipe)` row in
place if there is one, else insert a fresh row (`is_spam` defaults to
`False`) — then `rating.recipe.update_rating()`. -/
def rating_create (u : UserId) (rid : RecipeId) (v : ℕ) (db : DB) :
    Option String × DB :=
  if v < 1 || 5 < v then (some "Rating must be between 1 and 5.", db)
  else
    let db1 :=
      if db.ratings.any (fun x => x.user == u && x.recipeId == rid) then
        { db with ratings := db.ratings.map (fun x =>
            if x.user == u && x.recipeId == rid then { x with rating := v } else x) }
      else
        { db with ratings := db.ratings ++ [⟨u, rid, v, false⟩] }
    (none, update_rating rid db1)

/-- Next version number chosen by `RecipeVersion.create_version`:
the recipe's current maximum `version_number` plus 1 (`1` when the recipe
has no versions, matching `max` of the empty set being `0`). -/
def nextVersionNumber (rid : RecipeId) (db : DB) : ℕ :=
  (versionsOf rid db).foldr (fun v m => max v.version_number m) 0 + 1

/-- `RecipeVersion.create_version` (models.py 574-602): read the current
maximum version number, add 1, snapshot every current ingredient row by
value, and insert the new version row.  The source receives the recipe
object itself, so the `none` branch is unreachable from source flows. -/
def create_version (rid : RecipeId) (u : UserId) (change_summary : String)
    (db : DB) : DB :=
  match findRecipe rid db with
  | none => db
  | some r =>
    let snapshot := (ingredientsOf rid db).map (fun i =>
      (⟨i.name, i.quantity, i.unit, i.type, i.notes⟩ : SnapshotIngredient))
    { db with versions := db.versions ++
        [⟨rid, nextVersionNumber rid db, r.title, r.description,
          r.instructions, snapshot, u, change_summary⟩] }

/-- Ingredient payload of a create/update request
(`IngredientSerializer` as a nested writable serializer). -/
structure IngredientInput where
  name : String
  quantity : ℚ
  unit : String
  type : String
  notes : String
deriving DecidableEq

/-- `IngredientSerializer` field validation: `name` is a required
`CharField` (trimmed, non-blank, `max_length=200`); `quantity` is a
`DecimalField(max_digits=10, decimal_places=2)` with `MinValueValidator(0)`. -/
def validIngredient (i : IngredientInput) : Bool :=
  !(i.name.trim.isEmpty) && i.name.length ≤ 200 &&
    decide (0 ≤ i.quantity) && (i.quantity * 100).den == 1 &&
    decide (i.quantity < 10 ^ 8)

/-- Body of `POST /recipes/` handled by `RecipeCreateUpdateSerializer`. -/
structure CreateRequest where
  title : String
  description : String
  instructions : List String
  serving_size : ℕ
  cook_time : ℕ
  visibility : Visibility
  ingredients_data : List IngredientInput
deriving DecidableEq

/-- `RecipeCreateUpdateSerializer` validation (`validate_title`,
`validate_cook_time`, `validate_serving_size`, nested ingredient
validation); DRF runs all of it before `create`/`update` is entered. -/
def validCreate (req : CreateRequest) : Bool :=
  !(req.title.trim.isEmpty) && req.title.length ≤ 255 &&
    1 ≤ req.cook_time && 1 ≤ req.serving_size &&
    req.ingredients_data.all validIngredient

/-- Auto-increment primary key for a new recipe row. -/
def newRecipeId (db : DB) : RecipeId :=
  (db.recipes.map (fun r => r.rid)).foldr max 0 + 1

/-- `RecipeCreateUpdateSerializer.create` (serializers.py 239-253) behind
DRF's `is_valid(raise_exception=True)`: on invalid input the serializer
method is never entered and nothing is written; on valid input, insert the
recipe row (fresh aggregates), insert one ingredient row per payload entry,
then `RecipeVersion.create_version(recipe, user, "Initial version")`. -/
def recipe_create (u : UserId) (req : CreateRequest) (db : DB) :
    Option String × DB :=
  if validCreate req then
    let rid := newRecipeId db
    let db1 := { db with recipes := db.recipes ++
      [(⟨rid, req.title.trim, req.description, req.instructions,
        req.serving_size, req.cook_time, req.visibility, 0, 0⟩ : Recipe)] }
    let db2 := { db1 with ingredients := db1.ingredients ++
      req.ingredients_data.map (fun i =>
        (⟨rid, i.name.trim, i.quantity, i.unit, i.type, i.notes⟩ : IngredientRow)) }
    (none, create_version rid u "Initial version" db2)
  else (some "validation error", db)

/-- Body of `PATCH /recipes/{id}/`: partial update; every field optional,
`ingredients_data` optional (absent means "leave ingredients alone"). -/
structure UpdateRequest where
  title : Option String
  description : Option String
  instructions : Option (List String)
  serving_size : Option ℕ
  cook_time : Option ℕ
  visibility : Option Visibility
  ingredients_data : Option (List IngredientInput)
deriving DecidableEq

/-- Validation of an update request: each supplied field is validated the
same way as on create. -/
def validUpdate (req : UpdateRequest) : Bool :=
  (match req.title with
   | none => true
   | some t => !(t.trim.isEmpty) && t.length ≤ 255) &&
  (match req.cook_time with
   | none => true
   | some c => 1 ≤ c) &&
  (match req.serving_size with
   | none => true
   | some s => 1 ≤ s) &&
  (match req.ingredients_data with
   | none => true
   | some l => l.all validIngredient)

/-- The `setattr` loop of `RecipeCreateUpdateSerializer.update`: apply only
the supplied fields to the recipe row. -/
def applyFields (req : UpdateRequest) (r : Recipe) : Recipe :=
  { r with
    title := (req.title.map String.trim).getD r.title
    description := req.description.getD r.description
    instructions := req.instructions.getD r.instructions
    serving_size := req.serving_size.getD r.serving_size
    cook_time := req.cook_time.getD r.cook_time
    visibility := req.visibility.getD r.visibility }

/-- `RecipeCreateUpdateSerializer.update` (serializers.py 255-274): apply
the supplied fields and save; if `ingredients_data` was supplied, delete
all of this recipe's ingredient rows and insert the supplied list
(`instance.ingredients.all().delete()` then per-row create); finally
`RecipeVersion.create_version(instance, user, "Recipe updated")`. -/
def recipe_update (u : UserId) (rid : RecipeId) (req : UpdateRequest)
    (db : DB) : Option String × DB :=
  match findRecipe rid db with
  | none => (some "not found", db)
  | some _ =>
    if validUpdate req then
      let db1 := setRecipe rid (applyFields req) db
      let db2 :=
        match req.ingredients_data with
        | none => db1
        | some l =>
          { db1 with ingredients :=
              db1.ingredients.filter (fun i => !(i.recipeId == rid)) ++
                l.map (fun i =>
                  (⟨rid, i.name.trim, i.quantity, i.unit, i.type, i.notes⟩ :
                    IngredientRow)) }
      (none, create_version rid u "Recipe updated" db2)
    else (some "validation error", db)

/-- `RecipeViewSet.publish` (views.py 260-279): if the recipe's visibility
is draft or pending, set it to public, save, and answer 200; otherwise
answer 400 without touching the store (404 when the recipe is absent). -/
def publish (rid : RecipeId) (db : DB) : ℕ × DB :=
  match findRecipe rid db with
  | none => (404, db)
  | some r =>
    if r.visibility == Visibility.draft || r.visibility == Visibility.pending then
      (200, setRecipe rid (fun x => { x with visibility := Visibility.pub }) db)
    else
      (400, db)

/-- One entry of the list returned by `Recipe.get_ingredients_scaled`. -/
structure ScaledIngredient where
  name : String
  quantity : ℚ
  unit : String
  type : String
deriving DecidableEq

/-- `Recipe.get_ingredients_scaled` (models.py 256-276): reject
`new_serving_size <= 0` with a `ValueError`; otherwise
`scale_factor = Decimal(new_serving_size) / Decimal(self.serving_size)`
(decimal context division), and for each ingredient build a dict with the
original name/unit/type and `float(ingredient.quantity * scale_factor)`
(decimal context multiplication, then conversion to binary64). -/
def get_ingredients_scaled (rid : RecipeId) (new_serving_size : ℤ) (db : DB) :
    Except String (List ScaledIngredient) :=
  if new_serving_size ≤ 0 then
    Except.error "Serving size must be greater than 0"
  else
    match findRecipe rid db with
    | none => Except.error "recipe not found"
    | some r =>
      let scale_factor := dec28 ((new_serving_size : ℚ) / (r.serving_size : ℚ))
      Except.ok ((ingredientsOf rid db).map (fun i =>
        (⟨i.name, float64 (dec28 (i.quantity * scale_factor)), i.unit, i.type⟩ :
          ScaledIngredient)))

/-- The scale-preview request path (`RecipeViewSet.scale_ingredients` →
`RecipeScalePreviewSerializer` → `Recipe.get_ingredients_scaled`): a pure
read.  The store is returned alongside the response to make "never writes"
a provable statement. -/
def scale_endpoint (rid : RecipeId) (n : ℤ) (db : DB) :
    Except String (List ScaledIngredient) × DB :=
  (get_ingredients_scaled rid n db, db)

/-! ## Request-level transition system

Every state-touching request path of the modelled slice, for quantifying
over "any subsequent operation". -/

/-- One inbound request against the store. -/
inductive Op
  | opCreate (u : UserId) (req : CreateRequest)
  | opUpdate (u : UserId) (rid : RecipeId) (req : UpdateRequest)
  | opPublish (rid : RecipeId)
  | opRate (u : UserId) (rid : RecipeId) (v : ℕ)
  | opRecompute (rid : RecipeId)
  | opSnapshot (rid : RecipeId) (u : UserId) (s : String)
  | opScale (rid : RecipeId) (n : ℤ)

/-- Effect of one request on the store. -/
def step : Op → DB → DB
  | .opCreate u req, db => (recipe_create u req db).2
  | .opUpdate u rid req, db => (recipe_update u rid req db).2
  | .opPublish rid, db => (publish rid db).2
  | .opRate u rid v, db => (rating_create u rid v db).2
  | .opRecompute rid, db => update_rating rid db
  | .opSnapshot rid u s, db => create_version rid u s db
  | .opScale rid n, db => (scale_endpoint rid n db).2

/-- Run a sequence of requests left to right. -/
def run (ops : List Op) (db : DB) : DB :=
  ops.foldl (fun d op => step op d) db

/-! ## Spec-side definitions

Written from the spec's words (§4.3, §8 item 5), for comparison against the
source-derived `update_rating`: "read all non-spam-flagged ratings for the
recipe, compute arithmetic mean (0.0 if empty set)". -/

/-- The spec's aggregate input: the non-spam-flagged ratings of a recipe. -/
def specNonSpamRatings (rid : RecipeId) (db : DB) : List RatingRow :=
  db.ratings.filter (fun x => x.recipeId == rid && !x.is_spam)

/-- The spec's average: arithmetic mean of the non-spam-flagged ratings,
`0` if there are none. -/
def specNonSpamAverage (rid : RecipeId) (db : DB) : ℚ :=
  let l := specNonSpamRatings rid db
  if l.isEmpty then 0
  else (l.map (fun x => (x.rating : ℚ))).sum / (l.length : ℚ)

/-! ## Concrete stores used as test inputs -/

/-- A store with a 3-serving recipe holding one 1-cup ingredient. -/
def c1db : DB :=
  { recipes := [⟨1, "Bread", "", [], 3, 10, .pub, 0, 0⟩]
    ingredients := [⟨1, "flour", 1, "cup", "main", ""⟩]
    ratings := []
    versions := [] }

/-- A store with a 4-serving recipe holding one ingredient of quantity
`0.10` (a decimal value with no exact binary64 representation). -/
def c9db : DB :=
  { recipes := [⟨1, "Dressing", "", [], 4, 5, .pub, 0, 0⟩]
    ingredients := [⟨1, "oil", 1/10, "ml", "main", ""⟩]
    ratings := []
    versions := [] }

/-- A store whose single rating row is flagged as spam. -/
def c2db : DB :=
  { recipes := [⟨1, "Soup", "", [], 4, 10, .pub, 0, 0⟩]
    ingredients := []
    ratings := [⟨7, 1, 5, true⟩]
    versions := [] }

/-- A store whose recipe 2 carries three ratings {5, 3, 3}; their mean
`11/3` is not binary64-representable, so the stored average is rounded. -/
def c2db3 : DB :=
  { recipes := [⟨2, "Chili", "", [], 4, 10, .pub, 0, 0⟩]
    ingredients := []
    ratings := [⟨4, 2, 5, false⟩, ⟨5, 2, 3, false⟩, ⟨6, 2, 3, false⟩]
    versions := [] }

/-- A store where user 7 has already rated recipe 1 with 5 stars. -/
def c8db : DB :=
  { recipes := [⟨1, "Stew", "", [], 4, 10, .pub, 5, 1⟩]
    ingredients := []
    ratings := [⟨7, 1, 5, false⟩]
    versions := [] }

/-- A store with one draft recipe and two ingredients. -/
def basedb : DB :=
  { recipes := [⟨1, "Pasta", "Simple", ["Boil"], 4, 20, .draft, 0, 0⟩]
    ingredients := [⟨1, "Pasta", 500, "g", "main", ""⟩, ⟨1, "Salt", 5, "g", "spice", ""⟩]
    ratings := []
    versions := [] }

/-- A create request whose third ingredient is malformed (empty name). -/
def badCreateReq : CreateRequest :=
  ⟨"Cake", "Sweet", ["Mix", "Bake"], 8, 45, .draft,
    [⟨"Flour", 300, "g", "main", ""⟩, ⟨"Sugar", 150, "g", "main", ""⟩,
     ⟨"", 2, "units", "main", ""⟩]⟩

/-- An update request replacing the whole ingredient list with one entry. -/
def replaceReq : UpdateRequest :=
  ⟨none, none, none, none, none, none, some [⟨"Rice", 400, "g", "main", ""⟩]⟩

/-- An update request that does not touch the ingredient list. -/
def noTouchReq : UpdateRequest :=
  ⟨some "Pasta al dente", none, none, none, none, none, none⟩

/-! ## Helper lemmas -/

theorem setRecipe_ingredients (rid : RecipeId) (g : Recipe → Recipe) (db : DB) :
    (setRecipe rid g db).ingredients = db.ingredients := rfl

theorem setRecipe_ratings (rid : RecipeId) (g : Recipe → Recipe) (db : DB) :
    (setRecipe rid g db).ratings = db.ratings := rfl

theorem setRecipe_versions (rid : RecipeId) (g : Recipe → Recipe) (db : DB) :
    (setRecipe rid g db).versions = db.versions := rfl

theorem update_rating_ratings (rid : RecipeId) (db : DB) :
    (update_rating rid db).ratings = db.ratings := by
  unfold update_rating
  dsimp only
  split <;> rfl

theorem update_rating_versions (rid : RecipeId) (db : DB) :
    (update_rating rid db).versions = db.versions := by
  unfold update_rating
  dsimp only
  split <;> rfl

theorem create_version_recipes (rid : RecipeId) (u : UserId) (s : String) (db : DB) :
    (create_version rid u s db).recipes = db.recipes := by
  unfold create_version
  cases findRecipe rid db <;> rfl

theorem create_version_ingredients (rid : RecipeId) (u : UserId) (s : String) (db : DB) :
    (create_version rid u s db).ingredients = db.ingredients := by
  unfold create_version
  cases findRecipe rid db <;> rfl

theorem create_version_ratings (rid : RecipeId) (u : UserId) (s : String) (db : DB) :
    (create_version rid u s db).ratings = db.ratings := by
  unfold create_version
  cases findRecipe rid db <;> rfl

theorem create_version_versions_append (rid : RecipeId) (u : UserId) (s : String) (db : DB) :
    ∃ t, (create_version rid u s db).versions = db.versions ++ t := by
  unfold create_version
  cases findRecipe rid db with
  | none => exact ⟨[], by simp⟩
  | some r => exact ⟨_, rfl⟩

theorem find?_map_setter (rid : RecipeId) (g : Recipe → Recipe)
    (hg : ∀ r, (g r).rid = r.rid) (l : List Recipe) :
    (l.map (fun r => if r.rid == rid then g r else r)).find? (fun r => r.rid == rid)
      = (l.find? (fun r => r.rid == rid)).map g := by
  induction l with
  | nil => rfl
  | cons a l ih =>
    rw [List.map_cons]
    by_cases ha : a.rid = rid
    · have hb : (a.rid == rid) = true := by simp [ha]
      have hga : ((g a).rid == rid) = true := by simp [hg a, ha]
      rw [if_pos hb,
        @List.find?_cons_of_pos Recipe (fun r => r.rid == rid) (g a) _ hga,
        @List.find?_cons_of_pos Recipe (fun r => r.rid == rid) a _ hb]
      rfl
    · have hb : ¬(a.rid == rid) = true := by simp [ha]
      rw [if_neg hb,
        @List.find?_cons_of_neg Recipe (fun r => r.rid == rid) a _ hb,
        @List.find?_cons_of_neg Recipe (fun r => r.rid == rid) a _ hb]
      exact ih

theorem findRecipe_setRecipe (rid : RecipeId) (g : Recipe → Recipe)
    (hg : ∀ r, (g r).rid = r.rid) (db : DB) :
    findRecipe rid (setRecipe rid g db) = (findRecipe rid db).map g :=
  find?_map_setter rid g hg db.recipes

/-! ## Claims -/

/-- C5.  Scaling invalid input: for every recipe `R`, calling scale with
`new_serving_size ≤ 0` (e.g. `scale(R, 0)` or `scale(R, -1)`) fails with a
validation (invalid-argument) error, and in that failure path no stored
state is mutated. -/
theorem scale_invalid_input (db : DB) (rid : RecipeId) (n : ℤ) (h : n ≤ 0) :
    (scale_endpoint rid n db).1 = Except.error "Serving size must be greater than 0" ∧
    (scale_endpoint rid n db).2 = db := by
  refine ⟨?_, rfl⟩
  show get_ingredients_scaled rid n db = _
  unfold get_ingredients_scaled
  rw [if_pos h]

/-- Witness for C5: the concrete calls `scale(R, 0)` and `scale(R, -1)`. -/
theorem scale_invalid_input_witness :
    (scale_endpoint 1 0 c1db).1 = Except.error "Serving size must be greater than 0" ∧
    (scale_endpoint 1 (-1) c1db).1 = Except.error "Serving size must be greater than 0" ∧
    (scale_endpoint 1 0 c1db).2 = c1db :=
  ⟨(scale_invalid_input c1db 1 0 (by decide)).1,
   (scale_invalid_input c1db 1 (-1) (by decide)).1,
   (scale_invalid_input c1db 1 0 (by decide)).2⟩

/-- C10.  Publish guard: the publish operation sets a recipe's visibility to
public and reports success (200) exactly when the current visibility is
draft or pending; for any other visibility it returns 400 and leaves the
stored state entirely unchanged. -/
theorem publish_guard (db : DB) (rid : RecipeId) (r : Recipe)
    (h : findRecipe rid db = some r) :
    ((publish rid db).1 = 200 ↔
        (r.visibility = Visibility.draft ∨ r.visibility = Visibility.pending)) ∧
    ((r.visibility = Visibility.draft ∨ r.visibility = Visibility.pending) →
        findRecipe rid (publish rid db).2 = some { r with visibility := Visibility.pub }) ∧
    (¬(r.visibility = Visibility.draft ∨ r.visibility = Visibility.pending) →
        (publish rid db).1 = 400 ∧ (publish rid db).2 = db) := by
  have hset := findRecipe_setRecipe rid (fun x => { x with visibility := Visibility.pub })
    (fun _ => rfl) db
  unfold publish
  rw [h]
  by_cases h1 : r.visibility = Visibility.draft <;>
    by_cases h2 : r.visibility = Visibility.pending <;>
      simp [h1, h2, hset, h]

/-- Witness for C10: publishing the concrete draft recipe succeeds and
flips its visibility. -/
theorem publish_guard_witness :
    (publish 1 basedb).1 = 200 ∧
    findRecipe 1 (publish 1 basedb).2 =
      some ⟨1, "Pasta", "Simple", ["Boil"], 4, 20, Visibility.pub, 0, 0⟩ := by
  have h := publish_guard basedb 1 ⟨1, "Pasta", "Simple", ["Boil"], 4, 20, Visibility.draft, 0, 0⟩
    (by with_unfolding_all rfl)
  exact ⟨h.1.mpr (Or.inl rfl), h.2.1 (Or.inl rfl)⟩

/-- C3.  Atomic create: for every create request, the Recipe row and all
Ingredient rows are persisted all-or-nothing; in particular, a create
request containing any malformed ingredient (e.g. missing name) leaves zero
persisted Recipe rows and zero persisted Ingredient rows for that request
after the call fails. -/
theorem create_atomic (u : UserId) (req : CreateRequest) (db : DB) :
    ((recipe_create u req db).1.isSome = true → (recipe_create u req db).2 = db) ∧
    ((∃ i ∈ req.ingredients_data, validIngredient i = false) →
        (recipe_create u req db).1.isSome = true ∧ (recipe_create u req db).2 = db) ∧
    ((recipe_create u req db).1 = none →
        (recipe_create u req db).2.recipes = db.recipes ++
          [⟨newRecipeId db, req.title.trim, req.description, req.instructions,
            req.serving_size, req.cook_time, req.visibility, 0, 0⟩] ∧
        (recipe_create u req db).2.ingredients = db.ingredients ++
          req.ingredients_data.map (fun i =>
            ⟨newRecipeId db, i.name.trim, i.quantity, i.unit, i.type, i.notes⟩)) := by
  by_cases hv : validCreate req = true
  · have hall : req.ingredients_data.all validIngredient = true := by
      simp only [validCreate, Bool.and_eq_true] at hv
      exact hv.2
    unfold recipe_create
    rw [if_pos hv]
    refine ⟨?_, ?_, ?_⟩
    · intro hs
      simp at hs
    · rintro ⟨i, hi, hbad⟩
      rw [List.all_eq_true] at hall
      rw [hall i hi] at hbad
      cases hbad
    · intro _
      constructor
      · rw [create_version_recipes]
      · rw [create_version_ingredients]
  · unfold recipe_create
    rw [if_neg hv]
    refine ⟨fun _ => rfl, fun _ => ⟨rfl, rfl⟩, ?_⟩
    intro hc
    cases hc

/-- Witness for C3: the concrete create request with two valid ingredients
and one with an empty name fails and leaves the store unchanged. -/
theorem create_atomic_witness :
    (recipe_create 7 badCreateReq basedb).1.isSome = true ∧
    (recipe_create 7 badCreateReq basedb).2 = basedb :=
  (create_atomic 7 badCreateReq basedb).2.1
    ⟨⟨"", 2, "units", "main", ""⟩, by with_unfolding_all decide, by with_unfolding_all rfl⟩

/-- C7.  Replace semantics on update: when an update request supplies an
ingredients list, the entire existing ingredient set of the recipe is
replaced by the supplied list; when no ingredients list is supplied, the
existing ingredient set is left unchanged. -/
theorem update_replace_semantics (u : UserId) (rid : RecipeId) (req : UpdateRequest)
    (db : DB) (r : Recipe) (h : findRecipe rid db = some r)
    (hv : validUpdate req = true) :
    (∀ l, req.ingredients_data = some l →
        ingredientsOf rid (recipe_update u rid req db).2 =
          l.map (fun i => ⟨rid, i.name.trim, i.quantity, i.unit, i.type, i.notes⟩)) ∧
    (req.ingredients_data = none →
        ingredientsOf rid (recipe_update u rid req db).2 = ingredientsOf rid db) := by
  unfold recipe_update
  rw [h, if_pos hv]
  dsimp only
  constructor
  · intro l hl
    rw [hl]
    dsimp only
    unfold ingredientsOf
    rw [create_version_ingredients]
    show ((db.ingredients.filter _ ++ _).filter _) = _
    rw [List.filter_append]
    have h1 : (db.ingredients.filter (fun i => !(i.recipeId == rid))).filter
        (fun i => i.recipeId == rid) = [] := by
      rw [List.filter_filter]
      simp
    have h2 : ((l.map (fun i =>
        (⟨rid, i.name.trim, i.quantity, i.unit, i.type, i.notes⟩ : IngredientRow))).filter
          (fun i => i.recipeId == rid)) = l.map (fun i =>
        (⟨rid, i.name.trim, i.quantity, i.unit, i.type, i.notes⟩ : IngredientRow)) := by
      apply List.filter_eq_self.mpr
      intro a ha
      obtain ⟨i, _, rfl⟩ := List.mem_map.mp ha
      simp
    rw [h1, h2, List.nil_append]
  · intro hl
    rw [hl]
    dsimp only
    unfold ingredientsOf
    rw [create_version_ingredients, setRecipe_ingredients]

/-- Witness for C7: replacing the two stored ingredients with one new entry
leaves exactly that entry; an update without an ingredient list leaves the
stored set unchanged. -/
theorem update_replace_semantics_witness :
    ingredientsOf 1 (recipe_update 7 1 replaceReq basedb).2 =
      [⟨1, "Rice", 400, "g", "main", ""⟩] ∧
    ingredientsOf 1 (recipe_update 7 1 noTouchReq basedb).2 = ingredientsOf 1 basedb := by
  constructor
  · have h := (update_replace_semantics 7 1 replaceReq basedb
      ⟨1, "Pasta", "Simple", ["Boil"], 4, 20, .draft, 0, 0⟩
      (by with_unfolding_all rfl) (by with_unfolding_all rfl)).1
      [⟨"Rice", 400, "g", "main", ""⟩] rfl
    exact h.trans (by with_unfolding_all rfl)
  · exact (update_replace_semantics 7 1 noTouchReq basedb
      ⟨1, "Pasta", "Simple", ["Boil"], 4, 20, .draft, 0, 0⟩
      (by with_unfolding_all rfl) (by with_unfolding_all rfl)).2 rfl

/-- C2, counterexample.  The claim predicts that after the recompute the
aggregate reflects only non-spam ratings; on a store whose single rating is
spam-flagged the code stores average 5 / count 1 while the spec-side
non-spam aggregate is 0 / 0. -/
theorem rating_aggregate_counterexample :
    findRecipe 1 (update_rating 1 c2db) = some ⟨1, "Soup", "", [], 4, 10, .pub, 5, 1⟩ ∧
    specNonSpamAverage 1 c2db = 0 ∧
    (specNonSpamRatings 1 c2db).length = 0 ∧
    (findRecipe 1 (update_rating 1 c2db)).map Recipe.average_rating ≠
      some (specNonSpamAverage 1 c2db) ∧
    (findRecipe 1 (update_rating 1 c2db)).map Recipe.total_ratings ≠
      some (specNonSpamRatings 1 c2db).length :=
  ⟨by with_unfolding_all rfl, by with_unfolding_all rfl, by with_unfolding_all rfl,
   by with_unfolding_all decide, by with_unfolding_all decide⟩

/-- C2, amended.  Rating aggregate correctness as implemented: after the
recompute, `average_rating` equals the binary64 float of the arithmetic
mean of all currently-existing ratings of the recipe — spam-flagged ones
included — (0 if there are none; the `Avg` aggregate is stored into a
`FloatField`) and `total_ratings` equals their count. -/
theorem rating_aggregate_amended (rid : RecipeId) (db : DB) (r : Recipe)
    (h : findRecipe rid db = some r) :
    (findRecipe rid (update_rating rid db)).map Recipe.total_ratings
        = some (ratingsOf rid db).length ∧
    (ratingsOf rid db = [] →
        (findRecipe rid (update_rating rid db)).map Recipe.average_rating = some 0) ∧
    (ratingsOf rid db ≠ [] →
        (findRecipe rid (update_rating rid db)).map Recipe.average_rating =
          some (float64 (((ratingsOf rid db).map (fun x => (x.rating : ℚ))).sum /
            ((ratingsOf rid db).length : ℚ)))) := by
  unfold update_rating
  dsimp only
  by_cases hc : (ratingsOf rid db).isEmpty = true
  · have hnil : ratingsOf rid db = [] := by simpa using hc
    rw [if_pos hc,
      findRecipe_setRecipe rid
        (fun r => { r with average_rating := 0, total_ratings := 0 }) (fun _ => rfl),
      h]
    refine ⟨?_, ?_, ?_⟩ <;> simp [hnil]
  · have hne : ratingsOf rid db ≠ [] := by simpa using hc
    rw [if_neg hc,
      findRecipe_setRecipe rid
        (fun r => { r with
          average_rating :=
            float64 ((List.map (fun x => (x.rating : ℚ)) (ratingsOf rid db)).sum /
              ((ratingsOf rid db).length : ℚ))
          total_ratings := (ratingsOf rid db).length }) (fun _ => rfl),
      h]
    refine ⟨rfl, ?_, fun _ => rfl⟩
    intro hnil
    exact absurd (by simp [hnil]) hc

/-- Witness for C2 (amended): on the store with ratings {5, 3, 3} the
recompute stores count 3 and the binary64 rounding of the mean `11/3` —
the double `3.6666666666666665 = 8256599316845909 / 2^51`, not `11/3`. -/
theorem rating_aggregate_amended_witness :
    (findRecipe 2 (update_rating 2 c2db3)).map Recipe.total_ratings
        = some (ratingsOf 2 c2db3).length ∧
    (findRecipe 2 (update_rating 2 c2db3)).map Recipe.average_rating =
      some (float64 (((ratingsOf 2 c2db3).map (fun x => (x.rating : ℚ))).sum /
        ((ratingsOf 2 c2db3).length : ℚ))) ∧
    (findRecipe 2 (update_rating 2 c2db3)).map Recipe.average_rating =
      some (Rat.divInt 8256599316845909 2251799813685248) :=
  ⟨(rating_aggregate_amended 2 c2db3 ⟨2, "Chili", "", [], 4, 10, .pub, 0, 0⟩
      (by with_unfolding_all rfl)).1,
   (rating_aggregate_amended 2 c2db3 ⟨2, "Chili", "", [], 4, 10, .pub, 0, 0⟩
      (by with_unfolding_all rfl)).2.2 (by with_unfolding_all decide),
   ((rating_aggregate_amended 2 c2db3 ⟨2, "Chili", "", [], 4, 10, .pub, 0, 0⟩
      (by with_unfolding_all rfl)).2.2 (by with_unfolding_all decide)).trans
     (by with_unfolding_all rfl)⟩

theorem filter_map_comm {α : Type} (p : α → Bool) (f : α → α)
    (hp : ∀ x, p (f x) = p x) (l : List α) :
    (l.map f).filter p = (l.filter p).map f := by
  induction l with
  | nil => rfl
  | cons a l ih =>
    rw [List.map_cons, List.filter_cons, List.filter_cons, hp a]
    by_cases ha : p a = true
    · rw [if_pos ha, if_pos ha, List.map_cons, ih]
    · rw [if_neg ha, if_neg ha, ih]

theorem upsert_key_stable (u : UserId) (rid : RecipeId) (v : ℕ) (x : RatingRow) :
    ((if x.user == u && x.recipeId == rid then { x with rating := v } else x).user == u &&
      (if x.user == u && x.recipeId == rid then { x with rating := v } else x).recipeId == rid)
      = (x.user == u && x.recipeId == rid) := by
  by_cases h : (x.user == u && x.recipeId == rid) = true
  · rw [if_pos h]
  · rw [if_neg h]

theorem filter_map_upsert (u : UserId) (rid : RecipeId) (v : ℕ) (l : List RatingRow) :
    (l.map (fun x => if x.user == u && x.recipeId == rid then { x with rating := v } else x)).filter
        (fun x => x.user == u && x.recipeId == rid)
      = (l.filter (fun x => x.user == u && x.recipeId == rid)).map
          (fun x => { x with rating := v }) := by
  rw [filter_map_comm (fun x => x.user == u && x.recipeId == rid) _
    (upsert_key_stable u rid v) l]
  apply List.map_congr_left
  intro a ha
  rw [if_pos (List.mem_filter.mp ha).2]

theorem filter_not_map_upsert (u : UserId) (rid : RecipeId) (v : ℕ) (l : List RatingRow) :
    (l.map (fun x => if x.user == u && x.recipeId == rid then { x with rating := v } else x)).filter
        (fun x => !(x.user == u && x.recipeId == rid))
      = l.filter (fun x => !(x.user == u && x.recipeId == rid)) := by
  rw [filter_map_comm (fun x => !(x.user == u && x.recipeId == rid)) _
    (fun x => by dsimp only; rw [upsert_key_stable u rid v x]) l]
  have hid : ∀ a ∈ l.filter (fun x => !(x.user == u && x.recipeId == rid)),
      (if a.user == u && a.recipeId == rid then ({ a with rating := v } : RatingRow) else a) = a := by
    intro a ha
    have hk := (List.mem_filter.mp ha).2
    exact if_neg (fun hcon => by simp [hcon] at hk)
  rw [List.map_congr_left hid]
  simp

/-- C8, counterexample.  User 7 already rated recipe 1 with 5 stars;
resubmitting a 2-star rating succeeds (no conflict is surfaced) and the
stored rating row is silently overwritten in place. -/
theorem rating_overwrite_counterexample :
    c8db.ratings = [⟨7, 1, 5, false⟩] ∧
    (rating_create 7 1 2 c8db).1 = none ∧
    (rating_create 7 1 2 c8db).2.ratings = [⟨7, 1, 2, false⟩] :=
  ⟨rfl, by with_unfolding_all rfl, by with_unfolding_all rfl⟩

/-- C8, amended.  Duplicate rating handling as implemented
(`update_or_create`): when a user re-submits a rating for a recipe, the call
succeeds without any conflict error, the user's existing rating row (if any)
is updated in place to the new value — leaving exactly one row for that
(user, recipe) pair — and every other rating row is untouched. -/
theorem rating_upsert_semantics (u : UserId) (rid : RecipeId) (v : ℕ) (db : DB)
    (hv1 : 1 ≤ v) (hv5 : v ≤ 5)
    (hkey : (db.ratings.filter (fun x => x.user == u && x.recipeId == rid)).length ≤ 1) :
    (rating_create u rid v db).1 = none ∧
    ((rating_create u rid v db).2.ratings.filter
        (fun x => x.user == u && x.recipeId == rid)).map RatingRow.rating = [v] ∧
    (rating_create u rid v db).2.ratings.filter
        (fun x => !(x.user == u && x.recipeId == rid))
      = db.ratings.filter (fun x => !(x.user == u && x.recipeId == rid)) := by
  unfold rating_create
  have hcond : ¬(v < 1 || 5 < v) = true := by
    simp only [Bool.or_eq_true, decide_eq_true_eq]
    omega
  rw [if_neg hcond]
  dsimp only
  rw [update_rating_ratings]
  by_cases hex : (db.ratings.any (fun x => x.user == u && x.recipeId == rid)) = true
  · rw [if_pos hex]
    dsimp only
    refine ⟨rfl, ?_, ?_⟩
    · rw [filter_map_upsert]
      have hone : (db.ratings.filter (fun x => x.user == u && x.recipeId == rid)).length = 1 := by
        refine le_antisymm hkey ?_
        obtain ⟨x, hmem, hx⟩ := List.any_eq_true.mp hex
        exact List.length_pos.mpr (List.ne_nil_of_mem (List.mem_filter.mpr ⟨hmem, hx⟩))
      obtain ⟨x, hx⟩ := List.length_eq_one.mp hone
      rw [hx]
      rfl
    · rw [filter_not_map_upsert]
  · rw [if_neg hex]
    dsimp only
    have hnilkey : db.ratings.filter (fun x => x.user == u && x.recipeId == rid) = [] := by
      rw [List.filter_eq_nil_iff]
      intro x hmem hx
      have hall : ∀ y ∈ db.ratings, ¬(y.user == u && y.recipeId == rid) = true := by
        simpa [List.any_eq_true] using hex
      exact hall x hmem hx
    refine ⟨rfl, ?_, ?_⟩
    · rw [List.filter_append, hnilkey, List.nil_append]
      rw [List.filter_cons]
      rw [if_pos (by simp)]
      rfl
    · rw [List.filter_append]
      rw [List.filter_cons]
      rw [if_neg (by simp)]
      simp

/-- Witness for C8 (amended): the concrete resubmission by user 7 updates
the stored row to 2 stars, keeps exactly one row for (7, 1), and succeeds. -/
theorem rating_upsert_semantics_witness :
    (rating_create 7 1 2 c8db).1 = none ∧
    ((rating_create 7 1 2 c8db).2.ratings.filter
        (fun x => x.user == 7 && x.recipeId == 1)).map RatingRow.rating = [2] ∧
    (rating_create 7 1 2 c8db).2.ratings.filter
        (fun x => !(x.user == 7 && x.recipeId == 1))
      = c8db.ratings.filter (fun x => !(x.user == 7 && x.recipeId == 1)) :=
  rating_upsert_semantics 7 1 2 c8db (by decide) (by decide) (by with_unfolding_all decide)

theorem run_cons (op : Op) (ops : List Op) (db : DB) :
    run (op :: ops) db = run ops (step op db) := rfl

theorem versionsOf_create_version (rid : RecipeId) (u : UserId) (s : String)
    (db : DB) (r : Recipe) (h : findRecipe rid db = some r) :
    versionsOf rid (create_version rid u s db) = versionsOf rid db ++
      [⟨rid, nextVersionNumber rid db, r.title, r.description, r.instructions,
        (ingredientsOf rid db).map (fun i => ⟨i.name, i.quantity, i.unit, i.type, i.notes⟩),
        u, s⟩] := by
  unfold create_version
  rw [h]
  dsimp only
  unfold versionsOf
  show (db.versions ++ _).filter _ = _
  rw [List.filter_append]
  congr 1
  rw [List.filter_cons, if_pos (by simp)]
  rfl

theorem nextVersionNumber_eq (rid : RecipeId) (db : DB) :
    nextVersionNumber rid db =
      ((versionsOf rid db).map VersionRow.version_number).foldr max 0 + 1 := by
  unfold nextVersionNumber
  rw [List.foldr_map]

theorem foldr_max_range' (j : ℕ) : ∀ s : ℕ,
    (List.range' s j).foldr max 0 = if j = 0 then 0 else s + j - 1 := by
  induction j with
  | zero => intro s; rfl
  | succ j ih =>
    intro s
    rw [List.range'_succ, List.foldr_cons, ih (s + 1)]
    cases j with
    | zero => simp
    | succ n =>
      rw [if_neg (by omega), if_neg (by omega)]
      rw [Nat.max_eq_right (by omega : s ≤ s + 1 + (n + 1) - 1)]
      omega

theorem create_version_findRecipe (rid rid' : RecipeId) (u : UserId) (s : String) (db : DB) :
    findRecipe rid' (create_version rid u s db) = findRecipe rid' db := by
  unfold findRecipe
  rw [create_version_recipes]

theorem version_run_invariant (rid : RecipeId) (u : UserId) (s : String) :
    ∀ (j k : ℕ) (db : DB) (r : Recipe), findRecipe rid db = some r →
      (versionsOf rid db).map VersionRow.version_number = List.range' 1 k →
      (versionsOf rid (run (List.replicate j (Op.opSnapshot rid u s)) db)).map
          VersionRow.version_number = List.range' 1 (k + j) := by
  intro j
  induction j with
  | zero =>
    intro k db r _ hmap
    simpa using hmap
  | succ j ih =>
    intro k db r h hmap
    rw [List.replicate_succ, run_cons]
    have hnext : nextVersionNumber rid db = k + 1 := by
      rw [nextVersionNumber_eq, hmap, foldr_max_range']
      cases k with
      | zero => simp
      | succ n => rw [if_neg (by omega)]; omega
    have hstep : (versionsOf rid (step (Op.opSnapshot rid u s) db)).map
        VersionRow.version_number = List.range' 1 (k + 1) := by
      show (versionsOf rid (create_version rid u s db)).map VersionRow.version_number = _
      rw [versionsOf_create_version rid u s db r h, List.map_append, hmap, hnext]
      have : List.range' 1 (k + 1) = List.range' 1 k ++ [1 + 1 * k] :=
        List.range'_concat 1 k
      rw [this]
      simp [Nat.add_comm]
    have hfind : findRecipe rid (step (Op.opSnapshot rid u s) db) = some r := by
      show findRecipe rid (create_version rid u s db) = some r
      rw [create_version_findRecipe]
      exact h
    have := ih (k + 1) (step (Op.opSnapshot rid u s) db) r hfind hstep
    rw [this]
    congr 1
    omega

/-- C4.  Version monotonicity: starting from a recipe with no versions, the
`version_number` values assigned by successive `create_version` calls form
exactly the gapless sequence 1, 2, 3, ...; and each single append assigns
the current maximum version number for that recipe plus 1 (1 when no
version exists, the maximum of the empty set being 0). -/
theorem version_monotonicity (rid : RecipeId) (u : UserId) (s : String) (db : DB)
    (r : Recipe) (h : findRecipe rid db = some r) (h0 : versionsOf rid db = []) :
    (∀ j : ℕ, (versionsOf rid (run (List.replicate j (Op.opSnapshot rid u s)) db)).map
        VersionRow.version_number = List.range' 1 j) ∧
    (∀ (db' : DB) (r' : Recipe), findRecipe rid db' = some r' →
        (versionsOf rid (create_version rid u s db')).map VersionRow.version_number
          = (versionsOf rid db').map VersionRow.version_number ++
            [((versionsOf rid db').map VersionRow.version_number).foldr max 0 + 1]) := by
  constructor
  · intro j
    have := version_run_invariant rid u s j 0 db r h (by rw [h0]; rfl)
    simpa using this
  · intro db' r' h'
    rw [versionsOf_create_version rid u s db' r' h', List.map_append]
    congr 1
    rw [nextVersionNumber_eq]
    rfl

/-- Witness for C4: three successive appends on the concrete store yield
version numbers `[1, 2, 3]`. -/
theorem version_monotonicity_witness :
    (versionsOf 1 (run (List.replicate 3 (Op.opSnapshot 1 7 "v")) basedb)).map
        VersionRow.version_number = [1, 2, 3] := by
  have h := (version_monotonicity 1 7 "v" basedb
    ⟨1, "Pasta", "Simple", ["Boil"], 4, 20, .draft, 0, 0⟩
    (by with_unfolding_all rfl) (by with_unfolding_all rfl)).1 3
  exact h.trans (by with_unfolding_all rfl)

theorem recipe_create_versions_append (u : UserId) (req : CreateRequest) (db : DB) :
    ∃ t, (recipe_create u req db).2.versions = db.versions ++ t := by
  unfold recipe_create
  by_cases hv : validCreate req = true
  · rw [if_pos hv]
    dsimp only
    obtain ⟨t, ht⟩ := create_version_versions_append (newRecipeId db) u "Initial version" _
    exact ⟨t, ht⟩
  · rw [if_neg hv]
    exact ⟨[], by simp⟩

theorem recipe_update_versions_append (u : UserId) (rid : RecipeId)
    (req : UpdateRequest) (db : DB) :
    ∃ t, (recipe_update u rid req db).2.versions = db.versions ++ t := by
  unfold recipe_update
  cases hf : findRecipe rid db with
  | none => exact ⟨[], by simp⟩
  | some r =>
    by_cases hv : validUpdate req = true
    · rw [if_pos hv]
      dsimp only
      have hgen : ∀ M : DB, M.versions = db.versions →
          ∃ t, (create_version rid u "Recipe updated" M).versions = db.versions ++ t := by
        intro M hMv
        obtain ⟨t, ht⟩ := create_version_versions_append rid u "Recipe updated" M
        exact ⟨t, by rw [ht, hMv]⟩
      apply hgen
      cases req.ingredients_data <;> rfl
    · rw [if_neg hv]
      exact ⟨[], by simp⟩

theorem publish_versions (rid : RecipeId) (db : DB) :
    (publish rid db).2.versions = db.versions := by
  unfold publish
  cases findRecipe rid db with
  | none => rfl
  | some r =>
    dsimp only
    split <;> rfl

theorem rating_create_versions (u : UserId) (rid : RecipeId) (v : ℕ) (db : DB) :
    (rating_create u rid v db).2.versions = db.versions := by
  unfold rating_create
  dsimp only
  split
  · rfl
  · rw [update_rating_versions]
    split <;> rfl

theorem step_versions_append (op : Op) (db : DB) :
    ∃ t, (step op db).versions = db.versions ++ t := by
  cases op with
  | opCreate u req => exact recipe_create_versions_append u req db
  | opUpdate u rid req => exact recipe_update_versions_append u rid req db
  | opPublish rid =>
    exact ⟨[], by show (publish rid db).2.versions = _; rw [publish_versions]; simp⟩
  | opRate u rid v =>
    exact ⟨[], by show (rating_create u rid v db).2.versions = _
                  rw [rating_create_versions]; simp⟩
  | opRecompute rid =>
    exact ⟨[], by show (update_rating rid db).versions = _
                  rw [update_rating_versions]; simp⟩
  | opSnapshot rid u s => exact create_version_versions_append rid u s db
  | opScale rid n => exact ⟨[], by simp [step, scale_endpoint]⟩

theorem run_versions_append (ops : List Op) : ∀ db : DB,
    ∃ t, (run ops db).versions = db.versions ++ t := by
  induction ops with
  | nil => exact fun db => ⟨[], by simp [run]⟩
  | cons op ops ih =>
    intro db
    obtain ⟨t1, ht1⟩ := step_versions_append op db
    obtain ⟨t2, ht2⟩ := ih (step op db)
    exact ⟨t1 ++ t2, by rw [run_cons, ht2, ht1, List.append_assoc]⟩

/-- C6.  Version immutability / snapshot-by-value: `create_version` copies
the recipe's current title, description, instructions and a by-value
snapshot (name, quantity, unit, type, notes) of every current ingredient
into the new version row; and under any subsequent sequence of modelled
operations (edits, ingredient replacement/deletion, publishing, rating,
further snapshots — everything short of cascade deletion of the recipe) the
version rows present before are still present, unchanged, as a prefix of
the version table. -/
theorem version_snapshot_immutable (rid : RecipeId) (u : UserId) (s : String)
    (db : DB) (r : Recipe) (h : findRecipe rid db = some r) :
    (create_version rid u s db).versions = db.versions ++
      [⟨rid, nextVersionNumber rid db, r.title, r.description, r.instructions,
        (ingredientsOf rid db).map (fun i => ⟨i.name, i.quantity, i.unit, i.type, i.notes⟩),
        u, s⟩] ∧
    (∀ ops : List Op, ∃ t, (run ops (create_version rid u s db)).versions =
        (create_version rid u s db).versions ++ t) := by
  constructor
  · unfold create_version
    rw [h]
  · intro ops
    exact run_versions_append ops _

/-- Witness for C6: the concrete snapshot of the two-ingredient recipe,
with its by-value ingredient copies. -/
theorem version_snapshot_immutable_witness :
    (create_version 1 7 "v1" basedb).versions =
      basedb.versions ++ [⟨1, 1, "Pasta", "Simple", ["Boil"],
        [⟨"Pasta", 500, "g", "main", ""⟩, ⟨"Salt", 5, "g", "spice", ""⟩], 7, "v1"⟩] := by
  have h := (version_snapshot_immutable 1 7 "v1" basedb
    ⟨1, "Pasta", "Simple", ["Boil"], 4, 20, .draft, 0, 0⟩ (by with_unfolding_all rfl)).1
  exact h.trans (by with_unfolding_all rfl)

theorem dec28_one : dec28 1 = 1 := by with_unfolding_all rfl

/-- C1, counterexample.  Scaling the 3-serving recipe holding 1 cup of
flour to 1 serving: the exact value `q * (n/s)` is `1/3`, but the code
computes the 28-digit decimal quotient and converts the product to a
binary64 float, returning `6004799503160661 / 2^54 ≠ 1/3` — the returned
quantity is not exactly `q * (n/s)`. -/
theorem scaling_linearity_counterexample :
    c1db.recipes = [⟨1, "Bread", "", [], 3, 10, .pub, 0, 0⟩] ∧
    c1db.ingredients = [⟨1, "flour", 1, "cup", "main", ""⟩] ∧
    get_ingredients_scaled 1 1 c1db =
      Except.ok [⟨"flour", Rat.divInt 6004799503160661 18014398509481984, "cup", "main"⟩] ∧
    Rat.divInt 6004799503160661 18014398509481984 ≠ 1 * ((1 : ℚ) / 3) :=
  ⟨rfl, rfl, by with_unfolding_all rfl, by with_unfolding_all decide⟩

/-- C1, amended.  Scaling linearity as implemented: for every recipe with
serving size `s ≥ 1` and every target `n ≥ 1`, scaling returns one entry
per stored ingredient, in order, with the ingredient's name, unit and type
unchanged, whose quantity is the binary64 value of the 28-significant-digit
decimal product `q · dec28(n/s)` (Python `float(Decimal(q) * (Decimal(n) /
Decimal(s)))`) — equal to `q · (n/s)` exactly only when those roundings are
exact — and the call never mutates any stored state. -/
theorem scaling_linearity_amended (db : DB) (rid : RecipeId) (r : Recipe) (n : ℤ)
    (h : findRecipe rid db = some r) (hn : 1 ≤ n) :
    (scale_endpoint rid n db).2 = db ∧
    (∀ l, get_ingredients_scaled rid n db = Except.ok l →
        l.length = (ingredientsOf rid db).length ∧
        ∀ k : ℕ,
          l[k]?.map ScaledIngredient.name =
            ((ingredientsOf rid db)[k]?).map IngredientRow.name ∧
          l[k]?.map ScaledIngredient.unit =
            ((ingredientsOf rid db)[k]?).map IngredientRow.unit ∧
          l[k]?.map ScaledIngredient.type =
            ((ingredientsOf rid db)[k]?).map IngredientRow.type ∧
          l[k]?.map ScaledIngredient.quantity = ((ingredientsOf rid db)[k]?).map
            (fun i => float64 (dec28 (i.quantity *
              dec28 ((n : ℚ) / (r.serving_size : ℚ)))))) := by
  refine ⟨rfl, ?_⟩
  intro l hl
  unfold get_ingredients_scaled at hl
  rw [if_neg (by omega), h] at hl
  dsimp only at hl
  injection hl with hl
  subst hl
  refine ⟨by simp, ?_⟩
  intro k
  refine ⟨?_, ?_, ?_, ?_⟩ <;>
    · rw [List.getElem?_map]
      cases (ingredientsOf rid db)[k]? <;> rfl

/-- Witness for C1 (amended): the concrete scale call on the 3-serving
recipe returns one entry whose quantity is the rounded pipeline value. -/
theorem scaling_linearity_amended_witness :
    (scale_endpoint 1 1 c1db).2 = c1db ∧
    ([(⟨"flour", Rat.divInt 6004799503160661 18014398509481984, "cup", "main"⟩ :
        ScaledIngredient)]).length = (ingredientsOf 1 c1db).length ∧
    ([(⟨"flour", Rat.divInt 6004799503160661 18014398509481984, "cup", "main"⟩ :
        ScaledIngredient)])[0]?.map ScaledIngredient.quantity =
      ((ingredientsOf 1 c1db)[0]?).map
        (fun i => float64 (dec28 (i.quantity * dec28 ((1 : ℚ) / ((3 : ℕ) : ℚ))))) := by
  have hthm := scaling_linearity_amended c1db 1 ⟨1, "Bread", "", [], 3, 10, .pub, 0, 0⟩ 1
    (by with_unfolding_all rfl) (by decide)
  have hl := hthm.2
    [⟨"flour", Rat.divInt 6004799503160661 18014398509481984, "cup", "main"⟩]
    (by with_unfolding_all rfl)
  exact ⟨hthm.1, hl.1, (hl.2 0).2.2.2⟩

/-- C9, counterexample.  Scaling the 4-serving recipe to 4 servings (its
own serving size): the stored quantity is the decimal `0.10`, but the
returned quantity is `float(Decimal('0.10'))` = `3602879701896397 / 2^55`,
which is not numerically equal to the stored `1/10`. -/
theorem scaling_identity_counterexample :
    c9db.recipes = [⟨1, "Dressing", "", [], 4, 5, .pub, 0, 0⟩] ∧
    c9db.ingredients = [⟨1, "oil", 1/10, "ml", "main", ""⟩] ∧
    get_ingredients_scaled 1 4 c9db =
      Except.ok [⟨"oil", Rat.divInt 3602879701896397 36028797018963968, "ml", "main"⟩] ∧
    Rat.divInt 3602879701896397 36028797018963968 ≠ 1 / 10 :=
  ⟨rfl, rfl, by with_unfolding_all rfl, by with_unfolding_all decide⟩

/-- C9, amended.  Scaling identity as implemented: scaling a recipe to its
own serving size yields, for each stored ingredient, an entry with
unchanged name, unit and type whose quantity is `float64(dec28(q))` — the
binary64 value nearest the stored quantity (the scale factor `s/s` is
exactly 1 in decimal arithmetic); the returned quantity equals the stored
quantity exactly only when that quantity is binary64-representable. -/
theorem scaling_identity_amended (db : DB) (rid : RecipeId) (r : Recipe)
    (h : findRecipe rid db = some r) (hs : 1 ≤ r.serving_size) :
    get_ingredients_scaled rid (r.serving_size : ℤ) db =
      Except.ok ((ingredientsOf rid db).map (fun i =>
        (⟨i.name, float64 (dec28 i.quantity), i.unit, i.type⟩ : ScaledIngredient))) := by
  unfold get_ingredients_scaled
  rw [if_neg (by omega), h]
  dsimp only
  congr 1
  apply List.map_congr_left
  intro i _
  have hdiv : (((r.serving_size : ℤ) : ℚ)) / ((r.serving_size : ℕ) : ℚ) = 1 := by
    rw [Int.cast_natCast]
    exact div_self (by exact_mod_cast (by omega : r.serving_size ≠ 0))
  rw [hdiv, dec28_one, mul_one]

/-- Witness for C9 (amended): scaling the 4-serving recipe to 4 servings
returns its integer-valued quantities unchanged (they are binary64
representable). -/
theorem scaling_identity_amended_witness :
    get_ingredients_scaled 1 4 basedb =
      Except.ok [⟨"Pasta", 500, "g", "main"⟩, ⟨"Salt", 5, "g", "spice"⟩] := by
  have h := scaling_identity_amended basedb 1
    ⟨1, "Pasta", "Simple", ["Boil"], 4, 20, .draft, 0, 0⟩
    (by with_unfolding_all rfl) (by decide)
  exact h.trans (by with_unfolding_all rfl)

end RecipeAPI
